import Mathlib

/-!
Verification of the Smart Receipts (Receiptor AI) receipt pipeline.

The repository snapshot contains the React frontend (`ReceiptUpload.jsx`,
`Dashboard`, `ReceiptList`, `Analytics`, `api.js`); the FastAPI backend that
implements the Classification Orchestrator, Rule Engine, Receipt Store,
Analytics Aggregator and Audit Log is not part of the snapshot. Frontend
logic below is translated from the JavaScript source; backend operations are
modelled from the specification, each such definition saying so in its doc
comment.

Numbers: monetary amounts are modelled as rationals, file sizes and
identifiers as naturals. JavaScript strings are modelled as Lean strings,
with `toLowerCase`, `endsWith` and `includes` modelled characterwise.
-/

namespace SmartReceipts

/-! ### String helpers (models of the JavaScript string operations used) -/

/-- Characterwise lower-casing: model of JS `String.prototype.toLowerCase`. -/
def lowerStr (s : String) : String :=
  ⟨s.data.map Char.toLower⟩

/-- Model of JS `String.prototype.endsWith`. -/
def strEndsWith (s tail : String) : Bool :=
  tail.data.isSuffixOf s.data

/-- Model of JS `String.prototype.startsWith` / `charAt(0)` tests. -/
def strStartsWith (s head : String) : Bool :=
  head.data.isPrefixOf s.data

/-- `containsSub needle hay`: model of JS `hay.includes(needle)` —
contiguous-substring test. -/
def containsSub (needle : List Char) : List Char → Bool
  | [] => needle.isEmpty
  | c :: t => needle.isPrefixOf (c :: t) || containsSub needle t

/-- Model of the JS regex replace `s.replace(/\x2f.*$/, '')` used by the
dropzone's accept check: keep the characters before the first slash. -/
def stripSlash (s : String) : String :=
  ⟨s.data.takeWhile (fun c => !(c == '/'))⟩

/-! ### Data model -/

/-- `ExtractedData` as rendered by the frontend and specified in the data
model: every field optional (extraction may partially fail per field). -/
structure ExtractedData where
  vendor_name : Option String
  total_amount : Option Rat
  tax_amount : Option Rat
  date : Option String
  description : Option String
deriving Repr, DecidableEq

/-- The four processing statuses (`pending | processing | completed | failed`). -/
inductive ProcessingStatus where
  | pending
  | processing
  | completed
  | failed
deriving Repr, DecidableEq

/-- A Receipt record, fields as used by the frontend (`receipt.id`,
`filename`, `file_size`, `upload_timestamp`, `processing_status`,
`extracted_data`, `category`, `confidence_score`, `manual_review_needed`,
`tags`) plus the spec's free-text notes. -/
structure Receipt where
  id : Nat
  filename : String
  file_size : Nat
  upload_timestamp : Nat
  processing_status : ProcessingStatus
  extracted_data : Option ExtractedData
  category : Option String
  confidence_score : Option Rat
  manual_review_needed : Bool
  tags : List String
  notes : Option String
deriving Repr, DecidableEq

/-! ### Categories and colors (ReceiptList, Dashboard, Analytics) -/

/-- The category select options of `ReceiptList` (api.js lines 537–550):
value/label pairs, including the `all` sentinel. -/
def categories : List (String × String) :=
  [("all", "All Categories"),
   ("office_supplies", "Office Supplies"),
   ("meals_entertainment", "Meals & Entertainment"),
   ("travel", "Travel"),
   ("fuel", "Fuel"),
   ("equipment", "Equipment"),
   ("professional_services", "Professional Services"),
   ("utilities", "Utilities"),
   ("rent", "Rent"),
   ("marketing", "Marketing"),
   ("software", "Software"),
   ("other", "Other")]

/-- The `colors` object literal of `getCategoryColor` in `Dashboard` and
`ReceiptList` (badge classes), as a key/value list in source order. -/
def categoryColors : List (String × String) :=
  [("office_supplies", "bg-blue-100 text-blue-800"),
   ("meals_entertainment", "bg-orange-100 text-orange-800"),
   ("travel", "bg-green-100 text-green-800"),
   ("fuel", "bg-red-100 text-red-800"),
   ("equipment", "bg-purple-100 text-purple-800"),
   ("professional_services", "bg-indigo-100 text-indigo-800"),
   ("utilities", "bg-yellow-100 text-yellow-800"),
   ("rent", "bg-pink-100 text-pink-800"),
   ("marketing", "bg-teal-100 text-teal-800"),
   ("software", "bg-cyan-100 text-cyan-800"),
   ("other", "bg-gray-100 text-gray-800")]

/-- The `colors` object literal of `getCategoryColor` on the Analytics page
(solid chart classes), as a key/value list in source order. -/
def categoryColorsSolid : List (String × String) :=
  [("office_supplies", "bg-blue-500"),
   ("meals_entertainment", "bg-orange-500"),
   ("travel", "bg-green-500"),
   ("fuel", "bg-red-500"),
   ("equipment", "bg-purple-500"),
   ("professional_services", "bg-indigo-500"),
   ("utilities", "bg-yellow-500"),
   ("rent", "bg-pink-500"),
   ("marketing", "bg-teal-500"),
   ("software", "bg-cyan-500"),
   ("other", "bg-gray-500")]

/-- The 11 recognized expense categories (spec `GET /categories`). -/
def recognizedCategories : List String :=
  ["office_supplies", "meals_entertainment", "travel", "fuel", "equipment",
   "professional_services", "utilities", "rent", "marketing", "software",
   "other"]

/-- The property names every plain JS object inherits from
`Object.prototype`: indexing an object literal with one of these yields the
inherited member (a function, or the prototype object for `__proto__`) —
a truthy value — rather than undefined. -/
def objectProtoKeys : List String :=
  ["constructor", "hasOwnProperty", "isPrototypeOf", "propertyIsEnumerable",
   "toLocaleString", "toString", "valueOf", "__defineGetter__",
   "__defineSetter__", "__lookupGetter__", "__lookupSetter__", "__proto__"]

/-- What indexing the `colors` object literal can produce: an own
color-class string, or a member inherited from `Object.prototype`
(identified by its property name; a truthy non-string value, not a color
class). -/
inductive JsValue where
  | str (s : String)
  | protoMember (name : String)
deriving Repr, DecidableEq

/-- `obj[p]` on a plain JS object literal with own string properties
`own`: the own property if present, else the `Object.prototype` member of
that name, else undefined (`none`). -/
def jsIndex (own : List (String × String)) (p : String) : Option JsValue :=
  match own.lookup p with
  | some v => some (.str v)
  | none => if p ∈ objectProtoKeys then some (.protoMember p) else none

/-- `getCategoryColor` of `Dashboard`/`ReceiptList`:
`colors[category] || colors.other`, with a possibly-undefined argument.
Every value the index can produce (own string, inherited member) is
truthy, so only an absent property falls back to `colors.other`. -/
def getCategoryColor (category : Option String) : JsValue :=
  match category.bind (fun c => jsIndex categoryColors c) with
  | some v => v
  | none => (jsIndex categoryColors "other").getD (.str "")

/-- `getCategoryColor` of the Analytics page: same shape over the solid
color map. -/
def getCategoryColorSolid (category : Option String) : JsValue :=
  match category.bind (fun c => jsIndex categoryColorsSolid c) with
  | some v => v
  | none => (jsIndex categoryColorsSolid "other").getD (.str "")

/-! ### Upload boundary: dropzone acceptance (`ReceiptUpload.jsx`) -/

/-- An uploaded file as seen by the browser: name, reported mime type, and
size in bytes. -/
structure UploadFile where
  name : String
  mimeType : String
  size : Nat
deriving Repr, DecidableEq

/-- The accept attribute produced by the `useDropzone` config
`accept: { 'image/*': ['.png', '.jpg', '.jpeg'], 'application/pdf': ['.pdf'] }`:
the keys plus every listed extension. -/
def dropzoneAcceptAttr : List String :=
  ["image/*", ".png", ".jpg", ".jpeg", "application/pdf", ".pdf"]

/-- `maxSize: 10 * 1024 * 1024` from the `useDropzone` config. -/
def dropzoneMaxSize : Nat := 10 * 1024 * 1024

/-- One accept entry tested against a file, following the attr-accept
validator used by react-dropzone: an entry starting with a dot is a
case-insensitive filename-extension test; an entry ending in a slash-star
wildcard compares base mime types; otherwise the mime type must match
exactly. -/
def acceptsEntry (f : UploadFile) (entry : String) : Bool :=
  if strStartsWith entry "." then
    strEndsWith (lowerStr f.name) (lowerStr entry)
  else if strEndsWith entry "/*" then
    stripSlash f.mimeType == stripSlash entry
  else
    f.mimeType == entry

/-- A file passes the dropzone's type check when some accept entry matches. -/
def fileAccepted (f : UploadFile) : Bool :=
  dropzoneAcceptAttr.any (acceptsEntry f)

/-- The dropzone's size check (`maxSize`). -/
def fileMatchSize (f : UploadFile) : Bool :=
  decide (f.size ≤ dropzoneMaxSize)

/-- The file-acceptance predicate at the upload boundary: the `useDropzone`
config accepts a file when both the type check and the size check pass. -/
def dropzoneAccepts (f : UploadFile) : Bool :=
  fileAccepted f && fileMatchSize f

/-- The acceptance predicate exactly as the claim words it: the file's mime
type is in the png/jpeg/pdf allow-list or its extension is
png/jpg/jpeg/pdf, and its size is at most 10 MiB. Stated from the claim, to
be compared with `dropzoneAccepts`. -/
def claimAccepts (f : UploadFile) : Bool :=
  (["image/png", "image/jpeg", "application/pdf"].contains f.mimeType
      || [".png", ".jpg", ".jpeg", ".pdf"].any
          (fun e => strEndsWith (lowerStr f.name) e))
    && decide (f.size ≤ dropzoneMaxSize)

/-- The acceptance predicate the dropzone config actually implements: any
image mime type, or exactly application/pdf, or a png/jpg/jpeg/pdf filename
extension — and size at most 10 MiB. -/
def amendedAccepts (f : UploadFile) : Bool :=
  (stripSlash f.mimeType == "image"
      || f.mimeType == "application/pdf"
      || [".png", ".jpg", ".jpeg", ".pdf"].any
          (fun e => strEndsWith (lowerStr f.name) e))
    && decide (f.size ≤ dropzoneMaxSize)

/-! ### Rule Engine (modelled from the spec, section 4.2) -/

/-- A field value supplied to the Rule Engine: string or numeric. -/
inductive FieldValue where
  | str (s : String)
  | num (q : Rat)
deriving Repr, DecidableEq

/-- The comparators the spec supports: equals, contains (case-insensitive
substring), greater-than / less-than (numeric fields only). -/
inductive Comparator where
  | equals
  | contains
  | greaterThan
  | lessThan
deriving Repr, DecidableEq

/-- One rule condition: (field, comparator, value). -/
structure RuleCondition where
  field : String
  comparator : Comparator
  value : FieldValue
deriving Repr, DecidableEq

/-- Modelled from the spec: an `AIRule` — identifier, conditions, target
category, active flag, plus the priority and creation order that section
4.2 evaluates by. The backend rule store is not part of the repository
snapshot. -/
structure AIRule where
  id : Nat
  conditions : List RuleCondition
  target : String
  active : Bool
  priority : Int
  createdAt : Nat
deriving Repr, DecidableEq

/-- Modelled from the spec: one condition evaluated against the extracted
fields. A condition whose referenced field is absent evaluates false, never
throws; `contains` is a case-insensitive substring test; the numeric
comparators apply to numeric fields only. -/
def evalCondition (fields : List (String × FieldValue)) (c : RuleCondition) : Bool :=
  match fields.lookup c.field with
  | none => false
  | some v =>
    match c.comparator with
    | .equals => v == c.value
    | .contains =>
      match v, c.value with
      | .str s, .str w => containsSub (lowerStr w).data (lowerStr s).data
      | _, _ => false
    | .greaterThan =>
      match v, c.value with
      | .num a, .num b => decide (b < a)
      | _, _ => false
    | .lessThan =>
      match v, c.value with
      | .num a, .num b => decide (a < b)
      | _, _ => false

/-- A rule matches when all of its conditions evaluate true. -/
def ruleMatches (fields : List (String × FieldValue)) (r : AIRule) : Bool :=
  r.conditions.all (evalCondition fields)

/-- Modelled from the spec: the evaluation priority order — `ruleLE a b`
says `a` is evaluated no later than `b`: strictly higher priority first,
ties won by the more recently created rule. -/
def ruleLE (a b : AIRule) : Prop :=
  b.priority < a.priority ∨ (a.priority = b.priority ∧ b.createdAt ≤ a.createdAt)

instance : DecidableRel ruleLE := fun a b => by
  unfold ruleLE
  infer_instance

instance : IsTotal AIRule ruleLE := by
  constructor
  intro a b
  unfold ruleLE
  omega

instance : IsTrans AIRule ruleLE := by
  constructor
  intro a b c hab hbc
  unfold ruleLE at hab hbc ⊢
  omega

/-- Modelled from the spec: the order in which the Rule Engine evaluates a
rule set — active rules, sorted by descending priority with
most-recently-created winning ties. -/
def evalOrder (rules : List AIRule) : List AIRule :=
  List.insertionSort ruleLE (rules.filter (fun r => r.active))

/-- First-match-wins evaluation: the first rule all of whose conditions hold
short-circuits evaluation. -/
def firstMatch (fields : List (String × FieldValue)) : List AIRule → Option String
  | [] => none
  | r :: rest =>
    if ruleMatches fields r then some r.target else firstMatch fields rest

/-- Modelled from the spec: `classify(fields) → category | none`. -/
def classify (fields : List (String × FieldValue)) (rules : List AIRule) :
    Option String :=
  firstMatch fields (evalOrder rules)

/-! ### Classification Orchestrator and Receipt Store (modelled from the spec) -/

/-- Error taxonomy of the spec, section 7. -/
inductive PipelineError where
  | invalidInput
  | notFound
  | unauthorized
  | extractionFailure
  | configurationError
deriving Repr, DecidableEq

/-- An audit event: receipt identifier (possibly account-level) and kind. -/
structure AuditEvent where
  receiptId : Option Nat
  kind : String
deriving Repr, DecidableEq

/-- Backend state: the Receipt Store's records, the Audit Log, and the next
fresh identifier. -/
structure PipelineState where
  receipts : List Receipt
  audit : List AuditEvent
  nextId : Nat
deriving Repr, DecidableEq

/-- Modelled from the spec: the mime allow-list of the Classification
Orchestrator's step 1 (`image/png`, `image/jpeg`, `application/pdf`). The
backend service is not part of the repository snapshot. -/
def mimeAllowList : List String :=
  ["image/png", "image/jpeg", "application/pdf"]

/-- Modelled from the spec: step 1 validation — mime allow-list and the
10 MiB size ceiling. -/
def validateUpload (f : UploadFile) : Bool :=
  mimeAllowList.contains f.mimeType && decide (f.size ≤ dropzoneMaxSize)

/-- A freshly created Receipt: status `pending`, no extracted data, no
category, review flag clear. -/
def freshReceipt (idn : Nat) (f : UploadFile) (ts : Nat) : Receipt :=
  { id := idn, filename := f.name, file_size := f.size,
    upload_timestamp := ts, processing_status := .pending,
    extracted_data := none, category := none, confidence_score := none,
    manual_review_needed := false, tags := [], notes := none }

/-- The extracted fields handed to the Rule Engine, one entry per present
field. -/
def fieldsOf (d : ExtractedData) : List (String × FieldValue) :=
  (match d.vendor_name with
   | some v => [("vendor_name", FieldValue.str v)]
   | none => []) ++
  (match d.total_amount with
   | some a => [("total_amount", FieldValue.num a)]
   | none => []) ++
  (match d.tax_amount with
   | some a => [("tax_amount", FieldValue.num a)]
   | none => []) ++
  (match d.date with
   | some s => [("date", FieldValue.str s)]
   | none => []) ++
  (match d.description with
   | some s => [("description", FieldValue.str s)]
   | none => [])

/-- Modelled from the spec: orchestrator step 5 — invoke the Rule Engine
with the extracted fields; on a match set the category and clear the
manual-review flag, otherwise leave the category unset and set the
manual-review flag. -/
def applyClassification (r : Receipt) (rules : List AIRule) : Receipt :=
  match r.extracted_data with
  | none => { r with category := none, manual_review_needed := true }
  | some d =>
    match classify (fieldsOf d) rules with
    | some c => { r with category := some c, manual_review_needed := false }
    | none => { r with category := none, manual_review_needed := true }

/-- Modelled from the spec: `process(document bytes, mime type, filename)`,
steps 1–6. The Extraction Adapter is a pluggable capability, passed here as
its result (`none` = adapter failure). Validation failure returns
`InvalidInput` with the state untouched: no Receipt created, no audit event
appended. -/
def processUpload (st : PipelineState) (f : UploadFile) (ts : Nat)
    (extraction : Option (ExtractedData × Rat)) (rules : List AIRule) :
    PipelineState × Except PipelineError Receipt :=
  if validateUpload f then
    let r0 := freshReceipt st.nextId f ts
    let st1 : PipelineState :=
      ⟨st.receipts ++ [r0], st.audit ++ [⟨some r0.id, "UploadEvent"⟩],
       st.nextId + 1⟩
    match extraction with
    | none =>
      let r1 := { r0 with processing_status := .failed }
      (⟨st1.receipts.map (fun r => if r.id == r0.id then r1 else r),
        st1.audit ++ [⟨some r0.id, "ExtractionFailedEvent"⟩], st1.nextId⟩,
       .ok r1)
    | some (d, conf) =>
      let r1 := { r0 with
                  processing_status := .completed,
                  extracted_data := some d, confidence_score := some conf }
      let r2 := applyClassification r1 rules
      (⟨st1.receipts.map (fun r => if r.id == r0.id then r2 else r),
        st1.audit ++ [⟨some r0.id, "ClassifiedEvent"⟩], st1.nextId⟩,
       .ok r2)
  else
    (st, .error .invalidInput)

/-- Forward rank of a status along `pending → processing → {completed,
failed}`. -/
def statusRank : ProcessingStatus → Nat
  | .pending => 0
  | .processing => 1
  | .completed => 2
  | .failed => 2

/-- A partial update (`PUT /receipts/{id}`): category override, tags,
notes, and optionally a status change. -/
structure ReceiptPatch where
  category : Option (Option String)
  tags : Option (List String)
  notes : Option (Option String)
  status : Option ProcessingStatus
deriving Repr, DecidableEq

/-- Apply a partial update to one record. -/
def applyPatch (r : Receipt) (p : ReceiptPatch) : Receipt :=
  { r with
    category := p.category.getD r.category,
    tags := p.tags.getD r.tags,
    notes := p.notes.getD r.notes,
    processing_status := p.status.getD r.processing_status }

/-- Modelled from the spec: Receipt Store `update(id, partial fields)` —
fails `NotFound` when the identifier is absent and rejects attempts to move
the status backward. The backend store is not part of the repository
snapshot. -/
def updateReceipt (store : List Receipt) (idn : Nat) (p : ReceiptPatch) :
    Except PipelineError (List Receipt) :=
  match store.find? (fun r => r.id == idn) with
  | none => .error .notFound
  | some r =>
    match p.status with
    | some s =>
      if statusRank s < statusRank r.processing_status then
        .error .invalidInput
      else
        .ok (store.map (fun x => if x.id == idn then applyPatch x p else x))
    | none =>
      .ok (store.map (fun x => if x.id == idn then applyPatch x p else x))

/-- Modelled from the spec: Receipt Store `delete(id)` — idempotent,
deleting a missing identifier is not an error. -/
def deleteReceipt (store : List Receipt) (idn : Nat) :
    Except PipelineError (List Receipt) :=
  .ok (store.filter (fun r => !(r.id == idn)))

/-- `handleDelete`'s local-state update in `ReceiptList`:
`prev.filter(r => r.id !== receiptId)`. -/
def handleDeleteLocal (receipts : List Receipt) (receiptId : Nat) : List Receipt :=
  receipts.filter (fun r => !(r.id == receiptId))

/-! ### Single-receipt pipeline transitions (modelled from the spec) -/

/-- The pipeline operations that mutate one Receipt's processing state:
the `pending → processing` write, extraction success, extraction failure,
and the explicit user-triggered `reclassify` that re-enters `processing`. -/
inductive PipelineOp where
  | startProcessing
  | complete (d : ExtractedData) (conf : Rat)
  | failExtraction
  | reclassify
deriving Repr, DecidableEq

/-- Modelled from the spec: guarded single-receipt transitions. Extraction
failure leaves the record without extracted data (data is null until
extraction succeeds); `reclassify` re-enters `processing` from a terminal
status and repeats extraction against the existing record. -/
def applyOp (r : Receipt) : PipelineOp → Option Receipt
  | .startProcessing =>
    if r.processing_status = .pending then
      some { r with processing_status := .processing }
    else none
  | .complete d conf =>
    if r.processing_status = .processing then
      some { r with
             processing_status := .completed,
             extracted_data := some d, confidence_score := some conf }
    else none
  | .failExtraction =>
    if r.processing_status = .processing then
      some { r with processing_status := .failed, extracted_data := none }
    else none
  | .reclassify =>
    if r.processing_status = .completed ∨ r.processing_status = .failed then
      some { r with processing_status := .processing }
    else none

/-- The forward edges of the status diagram. -/
def forwardEdge : ProcessingStatus → ProcessingStatus → Bool
  | .pending, .processing => true
  | .processing, .completed => true
  | .processing, .failed => true
  | _, _ => false

/-- All five extraction fields present. -/
def fullData (d : ExtractedData) : Bool :=
  d.vendor_name.isSome && d.total_amount.isSome && d.tax_amount.isSome
    && d.date.isSome && d.description.isSome

/-- Extracted data absent or partial. -/
def absentOrPartial : Option ExtractedData → Bool
  | none => true
  | some d => !(fullData d)

/-- The data-model invariant: `completed` implies extracted data present;
`failed` implies extracted data absent or partial. -/
def ReceiptInv (r : Receipt) : Prop :=
  (r.processing_status = .completed → r.extracted_data.isSome = true) ∧
  (r.processing_status = .failed → absentOrPartial r.extracted_data = true)

/-- Receipts reachable from `r0` by pipeline operations. -/
inductive Reachable (r0 : Receipt) : Receipt → Prop where
  | refl : Reachable r0 r0
  | step {r r' : Receipt} (op : PipelineOp) :
      Reachable r0 r → applyOp r op = some r' → Reachable r0 r'

/-! ### Analytics Aggregator (modelled from the spec) and frontend folds -/

/-- One category-breakdown group of the analytics summary (`_id`,
`total_amount`, `count` in the API payload). -/
structure CategoryGroup where
  category : String
  total_amount : Rat
  count : Nat
deriving Repr, DecidableEq

/-- A receipt that the category breakdown groups: completed and
categorized. -/
def isCompletedCategorized (r : Receipt) : Bool :=
  r.processing_status == .completed && r.category.isSome

/-- A receipt's contribution to the totals: its extracted `total_amount`,
missing amounts counted as 0. -/
def amountOf (r : Receipt) : Rat :=
  match r.extracted_data with
  | some d => d.total_amount.getD 0
  | none => 0

/-- Modelled from the spec: `category_breakdown` — group the completed,
categorized receipts by category; one group per category with at least one
receipt; each group reports the sum of extracted total_amount (missing as
0) and the count. The backend aggregator is not part of the repository
snapshot. -/
def categoryBreakdown (rs : List Receipt) : List CategoryGroup :=
  let l := rs.filter isCompletedCategorized
  ((l.filterMap (fun r => r.category)).dedup).map (fun c =>
    { category := c,
      total_amount := ((l.filter (fun r => r.category == some c)).map amountOf).sum,
      count := (l.filter (fun r => r.category == some c)).length })

/-- The analytics summary payload (`total_receipts`, `total_amount`,
`category_breakdown`; the monthly-trends list is outside the claims
considered here). -/
structure Summary where
  total_receipts : Nat
  total_amount : Rat
  category_breakdown : List CategoryGroup
deriving Repr, DecidableEq

/-- Modelled from the spec: `summarize()` — `total_receipts` is the Receipt
Store's full count regardless of status; the grand total is the sum over
the category-breakdown groups. -/
def summarize (rs : List Receipt) : Summary :=
  { total_receipts := rs.length,
    total_amount := ((categoryBreakdown rs).map (fun g => g.total_amount)).sum,
    category_breakdown := categoryBreakdown rs }

/-- A category-breakdown group as the frontend receives it: every field may
be missing in the JSON payload. -/
structure CategoryGroupResp where
  category : Option String
  total_amount : Option Rat
  count : Nat
deriving Repr, DecidableEq

/-- The Dashboard's `totalAmount`:
`category_breakdown?.reduce((sum, cat) => sum + (cat.total_amount || 0), 0) || 0`. -/
def dashboardTotalAmount (breakdown : Option (List CategoryGroupResp)) : Rat :=
  match breakdown with
  | none => 0
  | some bl =>
    let t := bl.foldl (fun sum cat => sum + cat.total_amount.getD 0) 0
    if t = 0 then 0 else t

/-- The Analytics page's `totalSpent`:
`(categoryBreakdown || []).reduce((sum, category) => sum + (category.total_amount || 0), 0)`. -/
def analyticsTotalSpent (breakdown : Option (List CategoryGroupResp)) : Rat :=
  (breakdown.getD []).foldl (fun sum category => sum + category.total_amount.getD 0) 0

/-- The Dashboard's `pendingReviews` stat:
`receiptsData.filter(r => r.manual_review_needed).length`. -/
def pendingReviews (receiptsData : List Receipt) : Nat :=
  (receiptsData.filter (fun r => r.manual_review_needed)).length

/-! ### Listing: server-side filters and the client-side search -/

/-- The category query parameter (`loadReceipts` omits it when the filter is
`all`). -/
def matchesCategoryParam (catF : Option String) (r : Receipt) : Bool :=
  match catF with
  | none => true
  | some c => r.category == some c

/-- The status query parameter (omitted when the filter is `all`). -/
def matchesStatusParam (stF : Option ProcessingStatus) (r : Receipt) : Bool :=
  match stF with
  | none => true
  | some s => r.processing_status == s

/-- Modelled from the spec: Receipt Store `list(filter)` — conjunction over
the category and status parameters (the search conjunct is applied client
side by `filteredReceipts`). The backend store is not part of the
repository snapshot. -/
def listReceipts (store : List Receipt) (catF : Option String)
    (stF : Option ProcessingStatus) : List Receipt :=
  store.filter (fun r => matchesCategoryParam catF r && matchesStatusParam stF r)

/-- `matchesSearch` from `ReceiptList`'s `filteredReceipts`:
`!searchTerm || filename.toLowerCase().includes(term) || vendor_name?.toLowerCase().includes(term)`. -/
def matchesSearch (term : String) (r : Receipt) : Bool :=
  term == ""
    || containsSub (lowerStr term).data (lowerStr r.filename).data
    || (match r.extracted_data.bind (fun d => d.vendor_name) with
        | some v => containsSub (lowerStr term).data (lowerStr v).data
        | none => false)

/-- `filteredReceipts` from `ReceiptList`: keep the receipts matching the
search term. -/
def filteredReceipts (receipts : List Receipt) (term : String) : List Receipt :=
  receipts.filter (fun r => matchesSearch term r)

/-- The search predicate as the claim words it: the term is empty, or a
case-insensitive substring of the filename, or of the extracted vendor
name. -/
def SearchSpec (term : String) (r : Receipt) : Prop :=
  term = ""
    ∨ containsSub (lowerStr term).data (lowerStr r.filename).data = true
    ∨ ∃ v, r.extracted_data.bind (fun d => d.vendor_name) = some v
        ∧ containsSub (lowerStr term).data (lowerStr v).data = true

/-! ### `uploadFiles` (ReceiptUpload.jsx) -/

/-- A selected file's upload status. -/
inductive FileStatus where
  | pending
  | success
  | error
deriving Repr, DecidableEq

/-- One entry of the selected-files list (`files` state). -/
structure FileItem where
  id : Nat
  name : String
  status : FileStatus
deriving Repr, DecidableEq

/-- One entry of the `results` list built by `uploadFiles`. -/
structure UploadResult where
  id : Nat
  filename : String
  status : FileStatus
  data : Option Receipt
  err : Option String
deriving Repr, DecidableEq

/-- The result entry `uploadFiles` pushes for one file, given the server's
response (`outcome`): success with the response data, or error with the
error message. -/
def resultOf (outcome : FileItem → Except String Receipt) (f : FileItem) :
    UploadResult :=
  match outcome f with
  | .ok d =>
    { id := f.id, filename := f.name, status := .success,
      data := some d, err := none }
  | .error e =>
    { id := f.id, filename := f.name, status := .error,
      data := none, err := some e }

/-- The status `uploadFiles` writes back onto the file item. -/
def statusOf (outcome : FileItem → Except String Receipt) (f : FileItem) :
    FileStatus :=
  match outcome f with
  | .ok _ => .success
  | .error _ => .error

/-- `setFiles(prev => prev.map(f => f.id === fileItem.id ? {...f, status} : f))`. -/
def updateFileStatus (f : FileItem) (s : FileStatus) (g : FileItem) : FileItem :=
  if g.id == f.id then { g with status := s } else g

/-- The sequential `for (const fileItem of files)` loop of `uploadFiles`:
each iteration awaits one upload, appends its result entry, and updates
that file's status; a failed upload is caught and the loop continues. -/
def runUploads (outcome : FileItem → Except String Receipt) :
    List FileItem → List UploadResult → List FileItem →
    List UploadResult × List FileItem
  | [], acc, st => (acc, st)
  | f :: rest, acc, st =>
    runUploads outcome rest (acc ++ [resultOf outcome f])
      (st.map (updateFileStatus f (statusOf outcome f)))

/-- `uploadFiles`: returns immediately on an empty selection, otherwise runs
the sequential loop over the selected files starting from empty results. -/
def uploadFiles (outcome : FileItem → Except String Receipt)
    (files : List FileItem) : List UploadResult × List FileItem :=
  if files.length = 0 then ([], files) else runUploads outcome files [] files

/-! ### Sample data (used by concrete witnesses) -/

/-- The rule of the spec's scenario: `vendor contains "starbucks" →
meals_entertainment`. -/
def sampleRule : AIRule :=
  { id := 1,
    conditions := [⟨"vendor_name", .contains, .str "starbucks"⟩],
    target := "meals_entertainment", active := true, priority := 0,
    createdAt := 0 }

/-- The extraction result of the spec's scenario. -/
def sampleData : ExtractedData :=
  { vendor_name := some "Starbucks Coffee",
    total_amount := some (983 / 100 : Rat),
    tax_amount := some (78 / 100 : Rat),
    date := some "2025-09-02", description := some "Coffee" }

/-- A completed sample receipt. -/
def sampleReceipt : Receipt :=
  { id := 1, filename := "starbucks.png", file_size := 2048,
    upload_timestamp := 10, processing_status := .completed,
    extracted_data := some sampleData,
    category := some "meals_entertainment",
    confidence_score := some (95 / 100 : Rat),
    manual_review_needed := false, tags := [], notes := none }

/-! ### Theorems -/

/-- Claim C1 fails as stated: the dropzone accept list contains the
wildcard `image/*`, so a GIF file (mime `image/gif`, extension `.gif`,
well under the size ceiling) is accepted at the upload boundary even
though its type/extension is none of PNG, JPG/JPEG, or PDF. -/
theorem c1_counterexample :
    dropzoneAccepts ⟨"photo.gif", "image/gif", 1024⟩ = true
      ∧ claimAccepts ⟨"photo.gif", "image/gif", 1024⟩ = false := by
  decide

/-- Claim C1, amended: the upload-boundary predicate accepts a file iff
its mime type is any image type or `application/pdf`, or its filename
extension is png/jpg/jpeg/pdf — and its size is at most 10 MiB; and the
(spec-modelled) backend upload validation rejects any other file as
`InvalidInput`, creating no Receipt and appending no audit event. -/
theorem c1_upload_acceptance :
    ∀ (f : UploadFile) (st : PipelineState) (ts : Nat)
      (ex : Option (ExtractedData × Rat)) (rules : List AIRule),
    dropzoneAccepts f = amendedAccepts f
    ∧ (validateUpload f = false →
        processUpload st f ts ex rules = (st, .error .invalidInput)) := by
  intro f st ts ex rules
  constructor
  · have d1 : strStartsWith "image/*" "." = false := by decide
    have d2 : strEndsWith "image/*" "/*" = true := by decide
    have d3 : stripSlash "image/*" = "image" := by decide
    have d4 : strStartsWith ".png" "." = true := by decide
    have d5 : lowerStr ".png" = ".png" := by decide
    have d6 : strStartsWith ".jpg" "." = true := by decide
    have d7 : lowerStr ".jpg" = ".jpg" := by decide
    have d8 : strStartsWith ".jpeg" "." = true := by decide
    have d9 : lowerStr ".jpeg" = ".jpeg" := by decide
    have d10 : strStartsWith "application/pdf" "." = false := by decide
    have d11 : strEndsWith "application/pdf" "/*" = false := by decide
    have d12 : strStartsWith ".pdf" "." = true := by decide
    have d13 : lowerStr ".pdf" = ".pdf" := by decide
    simp only [dropzoneAccepts, fileAccepted, dropzoneAcceptAttr,
      List.any_cons, List.any_nil, acceptsEntry, d1, d2, d3, d4, d5, d6, d7,
      d8, d9, d10, d11, d12, d13, amendedAccepts, List.any_eq_true,
      fileMatchSize, Bool.false_eq_true, if_false, if_true, Bool.or_false]
    rw [Bool.eq_iff_iff]
    simp only [Bool.and_eq_true, Bool.or_eq_true, List.any_eq_true,
      List.mem_cons, List.not_mem_nil, or_false, exists_eq_or_imp,
      exists_eq_left]
    tauto
  · intro h
    simp [processUpload, h]

/-- Witness for C1's amended theorem: a valid PNG upload is accepted by
both predicates, and an oversized PDF is rejected by the backend with the
state untouched. -/
theorem c1_witness :
    dropzoneAccepts ⟨"receipt.png", "image/png", 2048⟩
        = amendedAccepts ⟨"receipt.png", "image/png", 2048⟩
      ∧ processUpload ⟨[], [], 1⟩ ⟨"big.pdf", "application/pdf", 15728640⟩ 0
          none [] = (⟨[], [], 1⟩, .error .invalidInput) :=
  ⟨(c1_upload_acceptance ⟨"receipt.png", "image/png", 2048⟩ ⟨[], [], 1⟩ 0
      none []).1,
   (c1_upload_acceptance ⟨"big.pdf", "application/pdf", 15728640⟩ ⟨[], [], 1⟩
      0 none []).2 (by decide)⟩

/-- Claim C3: the Rule Engine's `classify` is deterministic — a pure
function of the fields and the rule set; evaluation order is the active
rules sorted by descending priority with most-recently-created winning
ties (a permutation of the active rules, sorted by `ruleLE`); and the
first rule all of whose conditions hold short-circuits evaluation. -/
theorem c3_rule_engine_determinism :
    ∀ (fields : List (String × FieldValue)) (rules : List AIRule)
      (r : AIRule) (rest : List AIRule),
    classify fields rules = classify fields rules
    ∧ List.Sorted ruleLE (evalOrder rules)
    ∧ List.Perm (evalOrder rules) (rules.filter (fun a => a.active))
    ∧ (ruleMatches fields r = true →
        firstMatch fields (r :: rest) = some r.target) := by
  intro fields rules r rest
  refine ⟨rfl, ?_, ?_, ?_⟩
  · exact List.sorted_insertionSort ruleLE _
  · exact List.perm_insertionSort ruleLE _
  · intro h
    simp [firstMatch, h]

/-- Witness for C3: the Starbucks rule matches the sample fields, so a
one-rule evaluation list short-circuits to `meals_entertainment`. -/
theorem c3_witness :
    firstMatch [("vendor_name", FieldValue.str "Starbucks Coffee")]
      [sampleRule] = some "meals_entertainment" :=
  (c3_rule_engine_determinism
      [("vendor_name", FieldValue.str "Starbucks Coffee")] [sampleRule]
      sampleRule []).2.2.2 (by decide)

/-- Claim C5: when no rule matches the extracted fields the orchestrator
leaves the category unset and sets the manual-review flag; when a rule
matches it sets the category and clears the flag; and the dashboard's
pending-review count is the number of listed receipts whose
`manual_review_needed` flag is true. -/
theorem c5_manual_review :
    ∀ (r : Receipt) (rules : List AIRule) (d : ExtractedData) (c : String)
      (rs : List Receipt),
    (r.extracted_data = some d → classify (fieldsOf d) rules = none →
      (applyClassification r rules).manual_review_needed = true
      ∧ (applyClassification r rules).category = none)
    ∧ (r.extracted_data = some d → classify (fieldsOf d) rules = some c →
      (applyClassification r rules).category = some c
      ∧ (applyClassification r rules).manual_review_needed = false)
    ∧ pendingReviews rs = rs.countP (fun x => x.manual_review_needed) := by
  intro r rules d c rs
  refine ⟨?_, ?_, ?_⟩
  · intro h1 h2
    simp [applyClassification, h1, h2]
  · intro h1 h2
    simp [applyClassification, h1, h2]
  · simp [pendingReviews, List.countP_eq_length_filter]

/-- Witness for C5: with the Starbucks rule the sample receipt is
categorized and not flagged; with an empty rule set it is flagged and left
uncategorized. -/
theorem c5_witness :
    ((applyClassification sampleReceipt [sampleRule]).category
        = some "meals_entertainment"
      ∧ (applyClassification sampleReceipt [sampleRule]).manual_review_needed
        = false)
    ∧ ((applyClassification sampleReceipt []).manual_review_needed = true
      ∧ (applyClassification sampleReceipt []).category = none) :=
  ⟨(c5_manual_review sampleReceipt [sampleRule] sampleData
      "meals_entertainment" []).2.1 rfl (by decide),
   (c5_manual_review sampleReceipt [] sampleData "meals_entertainment"
      []).1 rfl (by decide)⟩

/-- Claim C7: the recognized expense categories are exactly the 11 listed
values; the category selector enumerates exactly these plus the `all`
sentinel; and both category-to-color maps have exactly these 11 keys. -/
theorem c7_category_enumeration :
    categories.map Prod.fst = "all" :: recognizedCategories
    ∧ categoryColors.map Prod.fst = recognizedCategories
    ∧ categoryColorsSolid.map Prod.fst = recognizedCategories
    ∧ recognizedCategories.length = 11
    ∧ recognizedCategories.Nodup := by
  refine ⟨by decide, by decide, by decide, by decide, by decide⟩

/-- Claim C8: `delete(id)` is idempotent — deleting an identifier no
receipt has succeeds and leaves the store unchanged, deleting twice equals
deleting once — and the frontend's local removal by id-filter is the
identity when no receipt in the list has that id. -/
theorem c8_delete_idempotent :
    ∀ (store : List Receipt) (idn : Nat),
    ((∀ r ∈ store, r.id ≠ idn) → deleteReceipt store idn = .ok store)
    ∧ (∀ st', deleteReceipt store idn = .ok st' →
        deleteReceipt st' idn = .ok st')
    ∧ ((∀ r ∈ store, r.id ≠ idn) → handleDeleteLocal store idn = store) := by
  intro store idn
  refine ⟨?_, ?_, ?_⟩
  · intro h
    simp only [deleteReceipt, Except.ok.injEq]
    exact List.filter_eq_self.mpr (fun r hr => by simp [h r hr])
  · intro st' h
    simp only [deleteReceipt, Except.ok.injEq] at h
    subst h
    simp only [deleteReceipt, Except.ok.injEq]
    rw [List.filter_filter]
    exact List.filter_congr (fun r _ => by cases hr : (r.id == idn) <;> simp [hr])
  · intro h
    exact List.filter_eq_self.mpr (fun r hr => by simp [h r hr])

/-- Witness for C8: deleting id 2 from a store holding only id 1 succeeds
and changes nothing, on the backend model and in the frontend list. -/
theorem c8_witness :
    deleteReceipt [sampleReceipt] 2 = .ok [sampleReceipt]
      ∧ handleDeleteLocal [sampleReceipt] 2 = [sampleReceipt] :=
  ⟨(c8_delete_idempotent [sampleReceipt] 2).1 (by decide),
   (c8_delete_idempotent [sampleReceipt] 2).2.2 (by decide)⟩

/-- An unrecognized category string is not an own key of either color
map. -/
theorem lookup_color_eq_none {c : String} (hc : c ∉ recognizedCategories) :
    categoryColors.lookup c = none ∧ categoryColorsSolid.lookup c = none := by
  simp only [recognizedCategories, List.mem_cons, List.not_mem_nil,
    or_false, not_or] at hc
  obtain ⟨h1, h2, h3, h4, h5, h6, h7, h8, h9, h10, h11⟩ := hc
  have e1 : (c == "office_supplies") = false := by simp [h1]
  have e2 : (c == "meals_entertainment") = false := by simp [h2]
  have e3 : (c == "travel") = false := by simp [h3]
  have e4 : (c == "fuel") = false := by simp [h4]
  have e5 : (c == "equipment") = false := by simp [h5]
  have e6 : (c == "professional_services") = false := by simp [h6]
  have e7 : (c == "utilities") = false := by simp [h7]
  have e8 : (c == "rent") = false := by simp [h8]
  have e9 : (c == "marketing") = false := by simp [h9]
  have e10 : (c == "software") = false := by simp [h10]
  have e11 : (c == "other") = false := by simp [h11]
  constructor <;>
    simp [categoryColors, categoryColorsSolid, List.lookup, e1, e2, e3, e4,
      e5, e6, e7, e8, e9, e10, e11]

/-- Claim C9 fails as stated: JS property access walks the prototype
chain, so `colors["toString"]` hits the inherited, truthy
`Object.prototype.toString` and the code returns that member — not the
`other` color class — even though `toString` is no recognized category. -/
theorem c9_counterexample :
    "toString" ∉ recognizedCategories
    ∧ getCategoryColor (some "toString") = .protoMember "toString"
    ∧ getCategoryColor (some "toString") ≠ getCategoryColor (some "other")
    ∧ getCategoryColorSolid (some "toString") = .protoMember "toString"
    ∧ getCategoryColorSolid (some "toString")
        ≠ getCategoryColorSolid (some "other") := by
  decide

/-- Claim C9, amended: `getCategoryColor` (both variants) is total and
never fails; each of the 11 recognized categories gets its own color
class; an undefined argument, or an unknown string that is not an
inherited `Object.prototype` property name, falls back to the `other`
class; an unknown string that names an inherited `Object.prototype`
member (such as `toString`) returns that inherited member instead of a
color class. -/
theorem c9_category_color_total :
    ∀ (p : String × String) (c : String),
    (p ∈ categoryColors → getCategoryColor (some p.1) = .str p.2)
    ∧ (c ∉ recognizedCategories → c ∉ objectProtoKeys →
        getCategoryColor (some c) = getCategoryColor (some "other"))
    ∧ (c ∉ recognizedCategories → c ∈ objectProtoKeys →
        getCategoryColor (some c) = .protoMember c)
    ∧ getCategoryColor none = getCategoryColor (some "other")
    ∧ (p ∈ categoryColorsSolid → getCategoryColorSolid (some p.1) = .str p.2)
    ∧ (c ∉ recognizedCategories → c ∉ objectProtoKeys →
        getCategoryColorSolid (some c) = getCategoryColorSolid (some "other"))
    ∧ (c ∉ recognizedCategories → c ∈ objectProtoKeys →
        getCategoryColorSolid (some c) = .protoMember c)
    ∧ getCategoryColorSolid none = getCategoryColorSolid (some "other") := by
  intro p c
  have hmem : ∀ q ∈ categoryColors, getCategoryColor (some q.1) = .str q.2 := by
    decide
  have hmem' : ∀ q ∈ categoryColorsSolid,
      getCategoryColorSolid (some q.1) = .str q.2 := by decide
  have hform : ∀ c', getCategoryColor (some c')
      = (jsIndex categoryColors c').getD
          ((jsIndex categoryColors "other").getD (.str "")) := by
    intro c'
    unfold getCategoryColor
    cases h : jsIndex categoryColors c' <;> simp [h]
  have hform' : ∀ c', getCategoryColorSolid (some c')
      = (jsIndex categoryColorsSolid c').getD
          ((jsIndex categoryColorsSolid "other").getD (.str "")) := by
    intro c'
    unfold getCategoryColorSolid
    cases h : jsIndex categoryColorsSolid c' <;> simp [h]
  refine ⟨fun hp => hmem p hp, ?_, ?_, by decide, fun hp => hmem' p hp,
    ?_, ?_, by decide⟩
  · intro hc hpk
    have hj : jsIndex categoryColors c = none := by
      simp [jsIndex, (lookup_color_eq_none hc).1, hpk]
    rw [hform c, hform "other", hj,
      show jsIndex categoryColors "other"
          = some (.str "bg-gray-100 text-gray-800") from by decide]
    rfl
  · intro hc hpk
    simp [hform c, jsIndex, (lookup_color_eq_none hc).1, hpk]
  · intro hc hpk
    have hj : jsIndex categoryColorsSolid c = none := by
      simp [jsIndex, (lookup_color_eq_none hc).2, hpk]
    rw [hform' c, hform' "other", hj,
      show jsIndex categoryColorsSolid "other"
          = some (.str "bg-gray-500") from by decide]
    rfl
  · intro hc hpk
    simp [hform' c, jsIndex, (lookup_color_eq_none hc).2, hpk]

/-- Witness for C9's amended theorem: the `travel` entry gets its own
class; an unknown non-prototype string falls back to the `other` class;
the prototype name `toString` yields the inherited member — in both
variants. -/
theorem c9_witness :
    getCategoryColor (some "travel") = .str "bg-green-100 text-green-800"
      ∧ getCategoryColor (some "unknown_kind")
        = getCategoryColor (some "other")
      ∧ getCategoryColor (some "toString") = .protoMember "toString"
      ∧ getCategoryColorSolid (some "travel") = .str "bg-green-500"
      ∧ getCategoryColorSolid (some "unknown_kind")
        = getCategoryColorSolid (some "other")
      ∧ getCategoryColorSolid (some "toString") = .protoMember "toString" :=
  ⟨(c9_category_color_total ("travel", "bg-green-100 text-green-800")
      "unknown_kind").1 (by decide),
   (c9_category_color_total ("travel", "bg-green-100 text-green-800")
      "unknown_kind").2.1 (by decide) (by decide),
   (c9_category_color_total ("travel", "bg-green-100 text-green-800")
      "toString").2.2.1 (by decide) (by decide),
   (c9_category_color_total ("travel", "bg-green-500") "unknown_kind").2.2.2.2.1
      (by decide),
   (c9_category_color_total ("travel", "bg-green-500")
      "unknown_kind").2.2.2.2.2.1 (by decide) (by decide),
   (c9_category_color_total ("travel", "bg-green-500")
      "toString").2.2.2.2.2.2.1 (by decide) (by decide)⟩

/-- Every successful pipeline operation establishes the data-model
invariant on its result. -/
theorem applyOp_preserves_inv {r r' : Receipt} {op : PipelineOp}
    (h : applyOp r op = some r') : ReceiptInv r' := by
  cases op with
  | startProcessing =>
    simp only [applyOp] at h
    split at h
    · cases h
      constructor <;> intro hs <;> simp at hs
    · cases h
  | complete d conf =>
    simp only [applyOp] at h
    split at h
    · cases h
      constructor
      · intro _
        rfl
      · intro hs
        simp at hs
    · cases h
  | failExtraction =>
    simp only [applyOp] at h
    split at h
    · cases h
      constructor
      · intro hs
        simp at hs
      · intro _
        rfl
    · cases h
  | reclassify =>
    simp only [applyOp] at h
    split at h
    · cases h
      constructor <;> intro hs <;> simp at hs
    · cases h

/-- Claim C4: the Receipt status only moves forward — the (spec-modelled)
store `update` rejects any backward status move as `InvalidInput`; every
successful single-receipt pipeline step follows a forward edge of
`pending → processing → {completed, failed}` except the sanctioned
`reclassify` re-entry into `processing`; and in every state reachable from
a fresh upload, `completed` implies extracted data present and `failed`
implies extracted data absent or partial. -/
theorem c4_status_forward :
    (∀ (store : List Receipt) (idn : Nat) (p : ReceiptPatch) (r : Receipt)
       (s : ProcessingStatus),
      store.find? (fun x => x.id == idn) = some r → p.status = some s →
      statusRank s < statusRank r.processing_status →
      updateReceipt store idn p = .error .invalidInput)
    ∧ (∀ (r r' : Receipt) (op : PipelineOp), applyOp r op = some r' →
        (forwardEdge r.processing_status r'.processing_status = true
          ∨ (op = .reclassify ∧ r'.processing_status = .processing)))
    ∧ (∀ (idn : Nat) (f : UploadFile) (ts : Nat) (r' : Receipt),
        Reachable (freshReceipt idn f ts) r' → ReceiptInv r') := by
  refine ⟨?_, ?_, ?_⟩
  · intro store idn p r s hfind hst hlt
    simp only [updateReceipt, hfind, hst]
    rw [if_pos hlt]
  · intro r r' op h
    cases op with
    | startProcessing =>
      left
      simp only [applyOp] at h
      split at h
      · cases h
        next hs => simp [hs, forwardEdge]
      · cases h
    | complete d conf =>
      left
      simp only [applyOp] at h
      split at h
      · cases h
        next hs => simp [hs, forwardEdge]
      · cases h
    | failExtraction =>
      left
      simp only [applyOp] at h
      split at h
      · cases h
        next hs => simp [hs, forwardEdge]
      · cases h
    | reclassify =>
      right
      simp only [applyOp] at h
      split at h
      · cases h
        exact ⟨rfl, rfl⟩
      · cases h
  · intro idn f ts r' hreach
    induction hreach with
    | refl =>
      constructor <;> intro hs <;> simp [freshReceipt] at hs
    | step op _ hstep _ =>
      exact applyOp_preserves_inv hstep

/-- Witness for C4: a backward patch (`completed → pending`) is rejected;
the `pending → processing` step is a forward edge; a fresh receipt
satisfies the invariant. -/
theorem c4_witness :
    updateReceipt [sampleReceipt] 1
        { category := none, tags := none, notes := none,
          status := some .pending } = .error .invalidInput
      ∧ ReceiptInv (freshReceipt 7 ⟨"a.png", "image/png", 9⟩ 0) :=
  ⟨(c4_status_forward.1 [sampleReceipt] 1
      { category := none, tags := none, notes := none,
        status := some .pending } sampleReceipt .pending rfl rfl
      (by decide)),
   c4_status_forward.2.2 7 ⟨"a.png", "image/png", 9⟩ 0 _ Reachable.refl⟩

/-- The search Boolean of `filteredReceipts` agrees with the claim's
predicate. -/
theorem matchesSearch_iff (term : String) (r : Receipt) :
    matchesSearch term r = true ↔ SearchSpec term r := by
  unfold matchesSearch SearchSpec
  cases hv : r.extracted_data.bind (fun d => d.vendor_name) with
  | none => simp [hv]
  | some v =>
    simp only [hv, Bool.or_eq_true, beq_iff_eq, Option.some.injEq,
      exists_eq_left']
    tauto

/-- Claim C6: the listing pipeline keeps exactly the receipts satisfying
the conjunction of the category parameter, the status parameter, and the
case-insensitive filename/vendor substring search; an empty search term
keeps every receipt. -/
theorem c6_search_filter :
    ∀ (store rs : List Receipt) (catF : Option String)
      (stF : Option ProcessingStatus) (term : String) (r : Receipt),
    (r ∈ filteredReceipts (listReceipts store catF stF) term ↔
      (r ∈ store ∧ matchesCategoryParam catF r = true
        ∧ matchesStatusParam stF r = true ∧ SearchSpec term r))
    ∧ filteredReceipts rs "" = rs
    ∧ (matchesSearch term r = true ↔ SearchSpec term r) := by
  intro store rs catF stF term r
  refine ⟨?_, ?_, matchesSearch_iff term r⟩
  · simp only [filteredReceipts, listReceipts, List.mem_filter,
      matchesSearch_iff, Bool.and_eq_true]
    tauto
  · exact List.filter_eq_self.mpr (fun x _ => by simp [matchesSearch])

/-- Witness for C6: with no server filters and the search term `star`, the
sample receipt is kept (its vendor name contains `Star`). -/
theorem c6_witness :
    sampleReceipt ∈ filteredReceipts (listReceipts [sampleReceipt] none none)
      "Star" :=
  (c6_search_filter [sampleReceipt] [] none none "Star" sampleReceipt).1.mpr
    ⟨List.mem_cons_self _ _, rfl, rfl, Or.inr (Or.inl (by decide))⟩

/-- Summing category-group totals over a duplicate-free key list that
covers every receipt's category recovers the sum over the whole list. -/
theorem sum_filter_groups (f : Receipt → Rat) (keys : List String) :
    keys.Nodup → ∀ (l : List Receipt),
    (∀ r ∈ l, ∃ c ∈ keys, r.category = some c) →
    ((keys.map (fun c =>
        ((l.filter (fun r => r.category == some c)).map f).sum)).sum
      = (l.map f).sum) := by
  induction keys with
  | nil =>
    intro _ l hcov
    have hl : l = [] := by
      cases l with
      | nil => rfl
      | cons a t =>
        obtain ⟨c, hc, _⟩ := hcov a (List.mem_cons_self a t)
        exact absurd hc (List.not_mem_nil c)
    subst hl
    simp
  | cons c ks ih =>
    intro hnd l hcov
    have hcks : c ∉ ks := (List.nodup_cons.mp hnd).1
    have hndks : ks.Nodup := (List.nodup_cons.mp hnd).2
    have hgroups : ∀ k ∈ ks,
        l.filter (fun r => r.category == some k)
          = (l.filter (fun r => !(r.category == some c))).filter
              (fun r => r.category == some k) := by
      intro k hk
      have hkc : k ≠ c := fun h => hcks (h ▸ hk)
      rw [List.filter_filter]
      apply List.filter_congr
      intro r _
      cases hcat : (r.category == some k) with
      | false => simp
      | true =>
        have hck : r.category = some k := by simpa using hcat
        simp [hck, hkc]
    have hsum2 : (ks.map (fun k =>
          ((l.filter (fun r => r.category == some k)).map f).sum)).sum
        = (ks.map (fun k =>
            (((l.filter (fun r => !(r.category == some c))).filter
                (fun r => r.category == some k)).map f).sum)).sum := by
      exact congrArg List.sum
        (List.map_congr_left (fun k hk => by rw [hgroups k hk]))
    have hcov2 : ∀ r ∈ l.filter (fun r => !(r.category == some c)),
        ∃ k ∈ ks, r.category = some k := by
      intro r hr
      obtain ⟨hrl, hrne⟩ := List.mem_filter.mp hr
      obtain ⟨k, hkmem, hkcat⟩ := hcov r hrl
      rcases List.mem_cons.mp hkmem with rfl | hks
      · exfalso
        simp [hkcat] at hrne
      · exact ⟨k, hks, hkcat⟩
    have hsplit : (l.map f).sum
        = ((l.filter (fun r => r.category == some c)).map f).sum
          + ((l.filter (fun r => !(r.category == some c))).map f).sum := by
      have hperm := List.filter_append_perm (fun r => r.category == some c) l
      calc (l.map f).sum
          = (((l.filter (fun r => r.category == some c))
              ++ (l.filter (fun r => !(r.category == some c)))).map f).sum :=
            ((hperm.map f).sum_eq).symm
        _ = _ := by
            rw [List.map_append, List.sum_append]
    simp only [List.map_cons, List.sum_cons]
    rw [hsum2, ih hndks _ hcov2, hsplit]

/-- The breakdown's group totals sum to the total over the completed,
categorized receipts. -/
theorem breakdown_sum (rs : List Receipt) :
    ((categoryBreakdown rs).map (fun g => g.total_amount)).sum
      = ((rs.filter isCompletedCategorized).map amountOf).sum := by
  unfold categoryBreakdown
  rw [List.map_map]
  apply sum_filter_groups amountOf _ (List.nodup_dedup _)
  intro r hr
  obtain ⟨_, hcc⟩ := List.mem_filter.mp hr
  have hsome : r.category.isSome = true := by
    simp only [isCompletedCategorized, Bool.and_eq_true] at hcc
    exact hcc.2
  obtain ⟨c, hc⟩ := Option.isSome_iff_exists.mp hsome
  exact ⟨c, List.mem_dedup.mpr (List.mem_filterMap.mpr ⟨r, hr, hc⟩), hc⟩

/-- Claim C2: the summary's total amount is the sum of `total_amount` over
exactly the completed, categorized receipts grouped by the category
breakdown (missing amounts as 0); `total_receipts` is the store's full
count regardless of status; and the Dashboard's `totalAmount` and the
Analytics page's `totalSpent` are both the fold of
`(group.total_amount or 0)` over the category breakdown starting from 0. -/
theorem c2_analytics_totals :
    ∀ (rs : List Receipt) (bl : List CategoryGroupResp),
    (summarize rs).total_amount
        = ((rs.filter isCompletedCategorized).map amountOf).sum
    ∧ (summarize rs).total_receipts = rs.length
    ∧ dashboardTotalAmount (some bl)
        = bl.foldl (fun sum cat => sum + cat.total_amount.getD 0) 0
    ∧ analyticsTotalSpent (some bl)
        = bl.foldl (fun sum cat => sum + cat.total_amount.getD 0) 0 := by
  intro rs bl
  refine ⟨breakdown_sum rs, rfl, ?_, rfl⟩
  simp only [dashboardTotalAmount]
  split
  · next h => exact h.symm
  · rfl

/-- The upload loop's results list: the accumulator followed by one entry
per remaining file, in order. -/
theorem runUploads_fst (outcome : FileItem → Except String Receipt) :
    ∀ (q : List FileItem) (acc : List UploadResult) (st : List FileItem),
    (runUploads outcome q acc st).1 = acc ++ q.map (resultOf outcome) := by
  intro q
  induction q with
  | nil =>
    intro acc st
    simp [runUploads]
  | cons f rest ih =>
    intro acc st
    simp [runUploads, ih, List.append_assoc]

/-- The upload loop's final file list is the fold of the per-file status
updates. -/
theorem runUploads_snd (outcome : FileItem → Except String Receipt) :
    ∀ (q : List FileItem) (acc : List UploadResult) (st : List FileItem),
    (runUploads outcome q acc st).2
      = q.foldl (fun s f => s.map (updateFileStatus f (statusOf outcome f))) st := by
  intro q
  induction q with
  | nil =>
    intro acc st
    simp [runUploads]
  | cons f rest ih =>
    intro acc st
    simp [runUploads, ih]

/-- With pairwise-distinct file ids, the fold of status updates rewrites
every list entry to the status of its own outcome (looked up by id). -/
theorem foldl_update_eq (outcome : FileItem → Except String Receipt) :
    ∀ (q : List FileItem), (q.map (fun f => f.id)).Nodup →
    ∀ (st : List FileItem),
    q.foldl (fun s f => s.map (updateFileStatus f (statusOf outcome f))) st
      = st.map (fun g =>
          match q.find? (fun f => g.id == f.id) with
          | some f => { g with status := statusOf outcome f }
          | none => g) := by
  intro q
  induction q with
  | nil =>
    intro _ st
    simp [List.find?]
  | cons f rest ih =>
    intro hnd st
    simp only [List.map_cons, List.nodup_cons] at hnd
    obtain ⟨hf, hndr⟩ := hnd
    simp only [List.foldl_cons]
    rw [ih hndr, List.map_map]
    apply List.map_congr_left
    intro g _
    simp only [Function.comp_apply, updateFileStatus]
    cases hid : (g.id == f.id) with
    | true =>
      have hgid : g.id = f.id := by simpa using hid
      have hnone : rest.find? (fun x => g.id == x.id) = none := by
        apply List.find?_eq_none.mpr
        intro x hx
        have : x.id ≠ f.id := by
          intro hxe
          exact hf (hxe ▸ List.mem_map_of_mem (fun y => y.id) hx)
        simp [hgid, this, Ne.symm this]
      have hnone' : rest.find? (fun x =>
          (if g.id == f.id then { g with status := statusOf outcome f }
           else g).id == x.id) = none := by
        simpa [hid] using hnone
      simp [hid, List.find?, hnone, hnone']
    | false =>
      simp [hid, List.find?]

/-- With distinct ids, looking a member up by its own id finds it. -/
theorem find_self_by_id :
    ∀ (files : List FileItem), (files.map (fun f => f.id)).Nodup →
    ∀ g ∈ files, files.find? (fun f => g.id == f.id) = some g := by
  intro files
  induction files with
  | nil =>
    intro _ g hg
    exact absurd hg (List.not_mem_nil g)
  | cons f rest ih =>
    intro hnd g hg
    simp only [List.map_cons, List.nodup_cons] at hnd
    obtain ⟨hf, hndr⟩ := hnd
    rcases List.mem_cons.mp hg with rfl | hgr
    · simp [List.find?]
    · have hne : g.id ≠ f.id := by
        intro he
        exact hf (he ▸ List.mem_map_of_mem (fun y => y.id) hgr)
      have : (g.id == f.id) = false := by simp [hne]
      simp [List.find?, this, ih hndr g hgr]

/-- Claim C10: over a non-empty selection with distinct ids, `uploadFiles`
produces exactly one result entry per selected file in selection order —
each a success entry carrying the response data or an error entry carrying
the message — updates every file's status to match its entry, and a
failure of one file does not prevent the rest (every later file still gets
its own entry and status, determined only by its own outcome). -/
theorem c10_upload_results :
    ∀ (files : List FileItem) (outcome : FileItem → Except String Receipt),
    files ≠ [] → (files.map (fun f => f.id)).Nodup →
    (uploadFiles outcome files).1 = files.map (resultOf outcome)
    ∧ (uploadFiles outcome files).2
        = files.map (fun g => { g with status := statusOf outcome g })
    ∧ (∀ f ∈ files,
        ((resultOf outcome f).status = .success
          ∧ ∃ d, outcome f = .ok d ∧ (resultOf outcome f).data = some d
              ∧ (resultOf outcome f).err = none)
        ∨ ((resultOf outcome f).status = .error
          ∧ ∃ e, outcome f = .error e ∧ (resultOf outcome f).err = some e
              ∧ (resultOf outcome f).data = none))
    ∧ (∀ f ∈ files, (resultOf outcome f).id = f.id
        ∧ (resultOf outcome f).filename = f.name) := by
  intro files outcome hne hnd
  have hlen : ¬(files.length = 0) := by
    simpa [List.length_eq_zero] using hne
  refine ⟨?_, ?_, ?_, ?_⟩
  · simp [uploadFiles, hlen, runUploads_fst]
  · simp only [uploadFiles, hlen, if_false]
    rw [runUploads_snd, foldl_update_eq outcome files hnd]
    apply List.map_congr_left
    intro g hg
    rw [find_self_by_id files hnd g hg]
  · intro f _
    cases ho : outcome f with
    | ok d => exact Or.inl ⟨by simp [resultOf, ho], d, rfl, by simp [resultOf, ho],
        by simp [resultOf, ho]⟩
    | error e => exact Or.inr ⟨by simp [resultOf, ho], e, rfl, by simp [resultOf, ho],
        by simp [resultOf, ho]⟩
  · intro f _
    cases ho : outcome f with
    | ok d => simp [resultOf, ho]
    | error e => simp [resultOf, ho]

/-- Witness for C10: two files, the first failing and the second
succeeding — both get entries in order and both statuses are updated. -/
theorem c10_witness :
    (uploadFiles
        (fun f => if f.id = 1 then .error "Upload failed" else .ok sampleReceipt)
        [⟨1, "bad.png", .pending⟩, ⟨2, "good.png", .pending⟩]).1
      = [⟨1, "bad.png", .error, none, some "Upload failed"⟩,
         ⟨2, "good.png", .success, some sampleReceipt, none⟩]
    ∧ (uploadFiles
        (fun f => if f.id = 1 then .error "Upload failed" else .ok sampleReceipt)
        [⟨1, "bad.png", .pending⟩, ⟨2, "good.png", .pending⟩]).2
      = [⟨1, "bad.png", .error⟩, ⟨2, "good.png", .success⟩] := by
  have h := c10_upload_results
    [⟨1, "bad.png", .pending⟩, ⟨2, "good.png", .pending⟩]
    (fun f => if f.id = 1 then .error "Upload failed" else .ok sampleReceipt)
    (by simp) (by decide)
  exact ⟨by rw [h.1]; rfl, by rw [h.2.1]; rfl⟩

end SmartReceipts
